import Mathlib

/-!
Verification of `simplegallery/spg-init.py`, the scaffolding script of the
simple-photo-gallery repository.

The file system is modelled shallowly: a path is a list of name components
(`os.path.join a b` becomes list append), and a file system is a finite
association list from paths to nodes (regular files with string content, or
directories).  A path "exists" (in the sense of `os.path.exists`) when it is a
component-wise prefix of some stored key, so implicitly-present ancestor
directories count as existing.  All functions of the script are translated to
pure Lean functions over this state; `sys.exit` and falling off the end of
`main` become an explicit returned exit code, and the blocking `input()` calls
become an explicit list of the strings the user types.

The two bundled template directory trees (`templates/public` and
`templates/html`) are package resources that are not part of the source file;
following the specification they are treated as opaque parameters: each is a
list of (relative path, node) pairs that `distutils.dir_util.copy_tree`
merge-copies into its destination.

Strings are treated at the level of their character lists; `str.lower`,
`str.endswith`, `str.isdigit` and `int()` are modelled for ASCII data, which
covers every string the script itself manipulates.
-/

namespace SPG

/-- A file-system path, as a list of name components. -/
abbrev Path := List String

/-- A node of the modelled file system: a regular file with its content, or a
directory. -/
inductive Node where
  | file (content : String)
  | dir
deriving DecidableEq

/-- A file system: a finite association list from paths to nodes.  Earlier
entries shadow later ones with the same key. -/
structure FS where
  entries : List (Path × Node)
deriving DecidableEq

/-- The node stored at exactly path `p`, if any. -/
def FS.lookup (fs : FS) (p : Path) : Option Node :=
  (fs.entries.find? (fun e => e.1 == p)).map (fun e => e.2)

/-- Models `os.path.exists`: `p` exists when some stored key lies at or below
`p`. -/
def FS.pathExists (fs : FS) (p : Path) : Bool :=
  fs.entries.any (fun e => p.isPrefixOf e.1)

/-- Store node `n` at path `p`, overwriting any previous node at exactly `p`. -/
def FS.set (fs : FS) (p : Path) (n : Node) : FS :=
  ⟨(p, n) :: fs.entries.filter (fun e => !(e.1 == p))⟩

/-- Models `shutil.move src dst`: the whole subtree rooted at `src` is
re-rooted at `dst`, overwriting whatever was at or below `dst`. -/
def FS.move (fs : FS) (src dst : Path) : FS :=
  ⟨((fs.entries.filter (fun e => src.isPrefixOf e.1)).map
      (fun e => (dst ++ e.1.drop src.length, e.2)))
    ++ fs.entries.filter (fun e => !(src.isPrefixOf e.1) && !(dst.isPrefixOf e.1))⟩

/-- Write every entry of the template `tpl` below `dst`, in order, overwriting
on conflict. -/
def copyTreeAux (tpl : List (Path × Node)) (dst : Path) (fs : FS) : FS :=
  tpl.foldl (fun acc e => acc.set (dst ++ e.1) e.2) fs

/-- Models `distutils.dir_util.copy_tree tpl dst`: creates the destination
directory and merge-copies the template below it, overwriting conflicting
files and leaving unrelated destination content in place. -/
def copy_tree (tpl : List (Path × Node)) (dst : Path) (fs : FS) : FS :=
  copyTreeAux tpl dst (fs.set dst .dir)

/-- Models `c.lower()` for ASCII characters, via `Char.toLower`. -/
def strLower (s : String) : String := ⟨s.data.map Char.toLower⟩

/-- Models `s.endswith(suf)`. -/
def strEndsWith (s suf : String) : Bool := suf.data.reverse.isPrefixOf s.data.reverse

/-- The media-extension test of `create_gallery_folder_structure`, line 93 of
the source: the lowercased basename ends in `.jpg`, `.jpeg`, `.gif` or
`.mp4`. -/
def mediaName (name : String) : Bool :=
  let l := strLower name
  strEndsWith l ".jpg" || strEndsWith l ".jpeg" || strEndsWith l ".gif" || strEndsWith l ".mp4"

/-- True when the name begins with a dot; `glob.glob` skips such entries. -/
def headIsDot (s : String) : Bool := s.data.head? == some '.'

/-- The immediate-child name of `p` below `root`, when `p` lies strictly below
`root`. -/
def childName (root p : Path) : Option String :=
  if root.isPrefixOf p then (p.drop root.length).head? else none

/-- Models `glob.glob(os.path.join(root, "*"))`, keeping only the basenames:
the distinct immediate-child names below `root`, excluding names that begin
with a dot. -/
def FS.rootChildren (fs : FS) (root : Path) : List String :=
  (((fs.entries.filterMap (fun e => childName root e.1)).filter
      (fun n => !(headIsDot n))).dedup)

/-- The move loop of `create_gallery_folder_structure` (lines 90-94): each
child whose name passes `mediaName` is moved to
`root/public/images/photos/<name>`. -/
def mediaMoves (names : List String) (root : Path) (fs : FS) : FS :=
  names.foldl (fun acc name =>
    if mediaName name then
      acc.move (root ++ [name]) (root ++ ["public", "images", "photos"] ++ [name])
    else acc) fs

/-- Embeds `create_gallery_folder_structure` (lines 79-97): copy the public
template below `root/public`, move the recognized media children into the
photos folder, then copy the HTML template into `root` itself. -/
def create_gallery_folder_structure (publicTpl htmlTpl : List (Path × Node))
    (gallery_root : Path) (fs : FS) : FS :=
  let fs1 := copy_tree publicTpl (gallery_root ++ ["public"]) fs
  let fs2 := mediaMoves (fs1.rootChildren gallery_root) gallery_root fs1
  copy_tree htmlTpl gallery_root fs2

/-- Embeds `check_if_gallery_creation_possible` (lines 42-54): the gallery can
be created exactly when the root path exists. -/
def check_if_gallery_creation_possible (fs : FS) (gallery_root : Path) : Bool :=
  fs.pathExists gallery_root

/-- Embeds `check_if_gallery_already_exists` (lines 57-76): true when any of
the four marker paths exists below the root. -/
def check_if_gallery_already_exists (fs : FS) (gallery_root : Path) : Bool :=
  [gallery_root ++ ["gallery.json"], gallery_root ++ ["images_data.json"],
   gallery_root ++ ["index_template.html"], gallery_root ++ ["public"]].any fs.pathExists

/-- Default gallery title (line 115). -/
def DEFAULT_TITLE : String := "My Gallery"

/-- Default gallery description (line 116). -/
def DEFAULT_DESCRIPTION : String := "Default description of my gallery"

/-- Default thumbnail height, as the string the source holds (line 117). -/
def DEFAULT_THUMBNAIL_HEIGHT : String := "320"

/-- Models `s.isdigit()` for ASCII data: nonempty and all decimal digits. -/
def strIsDigit (s : String) : Bool := !s.data.isEmpty && s.data.all Char.isDigit

/-- Models `int(s)` for a decimal digit string. -/
def digitsToNat (s : String) : Nat := s.data.foldl (fun a c => 10 * a + (c.toNat - 48)) 0

/-- The thumbnail-height prompt loop (lines 126-131), over the list of strings
the user will type: an empty answer is replaced by the default, the answer
must be a digit string whose value lies in `[32, 1024]`, and any other answer
is silently discarded.  Returns `none` when the supply of answers is exhausted
without an acceptable one (the real loop would then block forever waiting for
more input). -/
def thumbnailLoop : List String → Option Nat
  | [] => none
  | i :: rest =>
    let t := if i = "" then DEFAULT_THUMBNAIL_HEIGHT else i
    if strIsDigit t then
      let n := digitsToNat t
      if 32 ≤ n ∧ n ≤ 1024 then some n else thumbnailLoop rest
    else thumbnailLoop rest

/-- The gallery configuration record, with the fields of the dict built by
`create_gallery_json`, in insertion order. -/
structure GalleryConfig where
  images_data_file : Path
  public_path : Path
  images_path : Path
  thumbnails_path : Path
  title : String
  description : String
  thumbnail_height : Nat
deriving DecidableEq

/-- The answers the user types at the three prompts of
`create_gallery_json`. -/
structure UserInputs where
  titleInput : String
  descriptionInput : String
  thumbnailInputs : List String

/-- The configuration record assembled by `create_gallery_json`
(lines 106-132): the four derived paths, the title and description with empty
answers replaced by the defaults, and the thumbnail height produced by the
prompt loop.  `none` when the prompt loop never receives an acceptable
answer. -/
def buildGalleryConfig (gallery_root : Path) (inp : UserInputs) : Option GalleryConfig :=
  (thumbnailLoop inp.thumbnailInputs).map fun h =>
    { images_data_file := gallery_root ++ ["images_data.json"]
      public_path := gallery_root ++ ["public"]
      images_path := gallery_root ++ ["public", "images", "photos"]
      thumbnails_path := gallery_root ++ ["public", "images", "thumbnails"]
      title := if inp.titleInput = "" then DEFAULT_TITLE else inp.titleInput
      description := if inp.descriptionInput = "" then DEFAULT_DESCRIPTION else inp.descriptionInput
      thumbnail_height := h }

/-- A JSON scalar value, as this configuration file needs: a string or a
natural number. -/
inductive JVal where
  | str (s : String)
  | num (n : Nat)
deriving DecidableEq

/-- Wrap a string in JSON quotes (the configuration strings contain no
characters that `json.dump` would escape). -/
def quoteJson (s : String) : String := "\"" ++ s ++ "\""

/-- Render a JSON scalar. -/
def renderJVal : JVal → String
  | .str s => quoteJson s
  | .num n => toString n

/-- Render a path the way `os.path.join` builds it on a POSIX system. -/
def renderPath (p : Path) : String := String.intercalate "/" p

/-- Join strings with a separator. -/
def joinSep (sep : String) : List String → String
  | [] => ""
  | [x] => x
  | x :: y :: xs => x ++ sep ++ joinSep sep (y :: xs)

/-- Models `json.dump(obj, out, indent=4, separators=(itemSep, keySep))` for a
flat, nonempty JSON object: CPython with an `indent` emits the opening brace,
then each key/value pair on its own 4-space-indented line, the given item
separator followed by the newline and indentation between consecutive pairs,
and the closing brace on the final line. -/
def jsonDumpFlat (items : List (String × JVal)) (itemSep keySep : String) : String :=
  "\x7b\n    " ++ joinSep (itemSep ++ "\n    ")
      (items.map (fun e => quoteJson e.1 ++ keySep ++ renderJVal e.2)) ++ "\n\x7d"

/-- The key/value pairs of the dict that `create_gallery_json` serializes, in
insertion order. -/
def galleryJsonItems (c : GalleryConfig) : List (String × JVal) :=
  [("images_data_file", .str (renderPath c.images_data_file)),
   ("public_path", .str (renderPath c.public_path)),
   ("images_path", .str (renderPath c.images_path)),
   ("thumbnails_path", .str (renderPath c.thumbnails_path)),
   ("title", .str c.title),
   ("description", .str c.description),
   ("thumbnail_height", .num c.thumbnail_height)]

/-- The text that line 137 of the source writes:
`json.dump(gallery_config, out, indent=4, separators=(",", ": "))`. -/
def serializeGalleryConfig (c : GalleryConfig) : String :=
  jsonDumpFlat (galleryJsonItems c) "," ": "

/-- Embeds `create_gallery_json` (lines 100-137) at the file-system level: the
configuration is assembled from the prompt answers and written to
`root/gallery.json`.  `none` when the thumbnail prompt loop never
terminates. -/
def create_gallery_json (gallery_root : Path) (inp : UserInputs) (fs : FS) : Option FS :=
  (buildGalleryConfig gallery_root inp).map fun c =>
    fs.set (gallery_root ++ ["gallery.json"]) (.file (serializeGalleryConfig c))

/-- The command-line arguments the script reads. -/
structure Args where
  path : Path
  force : Bool

/-- Embeds `main` (lines 140-167): abort with exit code 1 when the root does
not exist; stop with exit code 0 when a gallery already exists and `--force`
is absent; otherwise scaffold the folder structure and write the
configuration, finishing with exit code 0.  The result is the exit code
together with the final file system, or `none` when the run blocks forever in
the thumbnail prompt loop. -/
def main (publicTpl htmlTpl : List (Path × Node)) (args : Args) (inp : UserInputs)
    (fs : FS) : Option (Nat × FS) :=
  let gallery_root := args.path
  if !(check_if_gallery_creation_possible fs gallery_root) then some (1, fs)
  else if check_if_gallery_already_exists fs gallery_root && !args.force then some (0, fs)
  else
    let fs1 := create_gallery_folder_structure publicTpl htmlTpl gallery_root fs
    (create_gallery_json gallery_root inp fs1).map (fun fs2 => (0, fs2))

/-- The value the template write loop leaves at `p`: the value of the last
template entry whose destination is `p`, if any. -/
def lastVal (tpl : List (Path × Node)) (dst p : Path) : Option Node :=
  (tpl.reverse.find? (fun e => dst ++ e.1 == p)).map (fun e => e.2)

/-- The final photos directory of the gallery. -/
def photosDir (root : Path) : Path := root ++ ["public", "images", "photos"]

/-- The acceptance test of one answer in the thumbnail prompt loop: empty is
replaced by the default, then the answer must be a digit string whose value
lies in `[32, 1024]`. -/
def acceptThumb (i : String) : Bool :=
  let t := if i = "" then DEFAULT_THUMBNAIL_HEIGHT else i
  strIsDigit t && (decide (32 ≤ digitsToNat t) && decide (digitsToNat t ≤ 1024))

/-- The height an accepted answer stands for. -/
def thumbVal (i : String) : Nat :=
  digitsToNat (if i = "" then DEFAULT_THUMBNAIL_HEIGHT else i)

/-- A small concrete file system used by the witnesses: a root `r` holding two
ordinary media files, a text file, a hidden media-named file and a
media-named directory. -/
def sampleFS : FS :=
  ⟨[(["r"], Node.dir),
    (["r", "a.JPG"], Node.file "A"),
    (["r", "b.mp4"], Node.file "B"),
    (["r", "c.txt"], Node.file "C"),
    (["r", ".hidden.jpg"], Node.file "H"),
    (["r", "d.jpg"], Node.dir)]⟩

/-- A small concrete public-assets template used by the witnesses. -/
def samplePublicTpl : List (Path × Node) :=
  [(["images"], Node.dir),
   (["images", "photos"], Node.dir),
   (["images", "thumbnails"], Node.dir),
   (["css", "main.css"], Node.file "css")]

/-- A small concrete HTML template used by the witnesses. -/
def sampleHtmlTpl : List (Path × Node) :=
  [(["index_template.html"], Node.file "tpl")]

/-! ### Basic lemmas about paths -/

theorem isPre_iff {l₁ l₂ : Path} : l₁.isPrefixOf l₂ = true ↔ l₁ <+: l₂ :=
  List.isPrefixOf_iff_prefix

theorem pre_total {l₁ l₂ l₃ : Path} (h1 : l₁ <+: l₃) (h2 : l₂ <+: l₃) :
    l₁ <+: l₂ ∨ l₂ <+: l₁ :=
  List.prefix_or_prefix_of_prefix h1 h2

theorem pre_append_iff {l l₁ l₂ : Path} : l ++ l₁ <+: l ++ l₂ ↔ l₁ <+: l₂ :=
  List.prefix_append_right_inj l

theorem pre_cons_cons {a b : String} {l₁ l₂ : Path} :
    a :: l₁ <+: b :: l₂ ↔ a = b ∧ l₁ <+: l₂ := by
  constructor
  · rintro ⟨t, ht⟩
    injection ht with h1 h2
    exact ⟨h1, t, h2⟩
  · rintro ⟨rfl, t, ht⟩
    exact ⟨t, by simp [ht]⟩

theorem pre_snoc_cons {root : Path} {a b : String} {t : List String}
    (h : root ++ [a] <+: root ++ b :: t) : a = b :=
  ((pre_cons_cons.mp (pre_append_iff.mp h)).1)

theorem pre_singleton_head {a : String} {l : Path} : [a] <+: l ↔ l.head? = some a := by
  cases l with
  | nil => simp
  | cons b t =>
    simp only [pre_cons_cons, List.head?_cons, Option.some.injEq]
    constructor
    · rintro ⟨rfl, _⟩; rfl
    · rintro rfl; exact ⟨rfl, List.nil_prefix⟩

/-! ### find? helper lemmas -/

theorem find?_filter_eq {α : Type} (l : List α) (f g : α → Bool) :
    (l.filter f).find? g = l.find? (fun a => f a && g a) := by
  induction l with
  | nil => rfl
  | cons a l ih =>
    by_cases hf : f a
    · rw [List.filter_cons_of_pos hf]
      by_cases hg : g a
      · simp [List.find?_cons, hf, hg]
      · simp only [Bool.not_eq_true] at hg
        simp [List.find?_cons, hf, hg, ih]
    · simp only [Bool.not_eq_true] at hf
      rw [List.filter_cons_of_neg (by simp [hf])]
      simp [List.find?_cons, hf, ih]

theorem find?_congr_pred {α : Type} (l : List α) (f g : α → Bool)
    (h : ∀ a, f a = g a) : l.find? f = l.find? g := by
  rw [funext h]

/-! ### Characterizing lookup after each file-system operation -/

theorem lookup_set (fs : FS) (q p : Path) (n : Node) :
    (fs.set q n).lookup p = if p = q then some n else fs.lookup p := by
  unfold FS.set FS.lookup
  by_cases h : p = q
  · subst h
    simp [List.find?_cons]
  · have hq : ((q, n).1 == p) = false := by
      simp only [beq_eq_false_iff_ne, ne_eq]
      exact fun hh => h hh.symm
    simp only [List.find?_cons, hq, if_neg h]
    rw [find?_filter_eq]
    congr 1
    apply find?_congr_pred
    intro e
    by_cases he : e.1 = p
    · have hne : e.1 ≠ q := by rw [he]; exact fun hh => h hh
      simp [he, hne, h]
    · simp [he]

theorem lookup_move (fs : FS) (src dst p : Path)
    (hsd : ¬ src <+: dst) (hds : ¬ dst <+: src) :
    (fs.move src dst).lookup p =
      if src <+: p then none
      else if dst <+: p then fs.lookup (src ++ p.drop dst.length)
      else fs.lookup p := by
  unfold FS.move FS.lookup
  rw [List.find?_append]
  by_cases hsp : src <+: p
  · rw [if_pos hsp]
    have hmoved : (((fs.entries.filter (fun e => src.isPrefixOf e.1)).map
        (fun e => (dst ++ e.1.drop src.length, e.2))).find? (fun e => e.1 == p)) = none := by
      rw [List.find?_eq_none]
      rintro ⟨k, v⟩ hmem hpk
      simp only [List.mem_map, List.mem_filter] at hmem
      obtain ⟨e, ⟨_, hpre⟩, heq⟩ := hmem
      have hk : dst <+: k := by
        have hfst : (dst ++ e.1.drop src.length, e.2).1 = (k, v).1 := congrArg Prod.fst heq
        simp only at hfst
        exact hfst ▸ List.prefix_append dst _
      have hkp : k = p := by simpa using hpk
      subst hkp
      rcases pre_total hk hsp with h | h
      · exact hds h
      · exact hsd h
    have hkept : ((fs.entries.filter
        (fun e => !(src.isPrefixOf e.1) && !(dst.isPrefixOf e.1))).find?
          (fun e => e.1 == p)) = none := by
      rw [List.find?_eq_none]
      rintro ⟨k, v⟩ hmem hpk
      simp only [List.mem_filter, Bool.and_eq_true, Bool.not_eq_true'] at hmem
      have hkp : k = p := by simpa using hpk
      subst hkp
      have := hmem.2.1
      rw [Bool.eq_false_iff] at this
      exact this (isPre_iff.mpr hsp)
    simp [hmoved, hkept]
  · rw [if_neg hsp]
    by_cases hdp : dst <+: p
    · rw [if_pos hdp]
      obtain ⟨ptail, hptail⟩ := hdp
      have hdrop : p.drop dst.length = ptail := by
        rw [← hptail]; exact List.drop_left dst ptail
      have hmoved : (((fs.entries.filter (fun e => src.isPrefixOf e.1)).map
          (fun e => (dst ++ e.1.drop src.length, e.2))).find? (fun e => e.1 == p)) =
          (fs.entries.find? (fun e => e.1 == src ++ ptail)).map
            (fun e => (dst ++ e.1.drop src.length, e.2)) := by
        rw [List.find?_map, find?_filter_eq]
        congr 1
        apply find?_congr_pred
        rintro ⟨k, v⟩
        simp only [Function.comp]
        by_cases hks : src <+: k
        · obtain ⟨kt, hkt⟩ := hks
          have h1 : (src.isPrefixOf k) = true := isPre_iff.mpr ⟨kt, hkt⟩
          have hkdrop : k.drop src.length = kt := by
            rw [← hkt]; exact List.drop_left src kt
          rw [h1, Bool.true_and, hkdrop]
          by_cases he : kt = ptail
          · subst he
            simp [← hkt, ← hptail]
          · have h2 : (dst ++ kt == p) = false := by
              rw [beq_eq_false_iff_ne]
              rw [← hptail]
              intro hcontra
              exact he (List.append_cancel_left hcontra)
            have h3 : (k == src ++ ptail) = false := by
              rw [beq_eq_false_iff_ne, ← hkt]
              intro hcontra
              exact he (List.append_cancel_left hcontra)
            rw [h2, h3]
        · have h1 : (src.isPrefixOf k) = false := by
            rw [Bool.eq_false_iff]
            intro hcontra
            exact hks (isPre_iff.mp hcontra)
          have h3 : (k == src ++ ptail) = false := by
            rw [beq_eq_false_iff_ne]
            rintro rfl
            exact hks (List.prefix_append src ptail)
          rw [h1, Bool.false_and, h3]
      rw [hmoved, hdrop]
      cases hfind : fs.entries.find? (fun e => e.1 == src ++ ptail) with
      | none =>
        simp only [hfind, Option.map_none', Option.none_or]
        rw [find?_filter_eq]
        have hnone : fs.entries.find?
            (fun e => (!(src.isPrefixOf e.1) && !(dst.isPrefixOf e.1)) && e.1 == p) = none := by
          rw [List.find?_eq_none]
          rintro ⟨k, v⟩ hmem hpk
          simp only [Bool.and_eq_true, Bool.not_eq_true'] at hpk
          have hkp : k = p := by simpa using hpk.2
          subst hkp
          have := hpk.1.2
          rw [Bool.eq_false_iff] at this
          exact this (isPre_iff.mpr ⟨ptail, hptail.symm ▸ rfl⟩)
        simp [hnone]
      | some e =>
        simp [hfind]
    · rw [if_neg hdp]
      have hmoved : (((fs.entries.filter (fun e => src.isPrefixOf e.1)).map
          (fun e => (dst ++ e.1.drop src.length, e.2))).find? (fun e => e.1 == p)) = none := by
        rw [List.find?_eq_none]
        rintro ⟨k, v⟩ hmem hpk
        simp only [List.mem_map, List.mem_filter] at hmem
        obtain ⟨e, ⟨_, _⟩, heq⟩ := hmem
        have hk : dst <+: k := by
          have hfst : (dst ++ e.1.drop src.length, e.2).1 = (k, v).1 := congrArg Prod.fst heq
          simp only at hfst
          exact hfst ▸ List.prefix_append dst _
        have hkp : k = p := by simpa using hpk
        exact hdp (hkp ▸ hk)
      rw [hmoved, Option.none_or, find?_filter_eq]
      congr 1
      apply find?_congr_pred
      rintro ⟨k, v⟩
      by_cases hkp : k = p
      · subst hkp
        have h1 : (k.isPrefixOf k) = true := isPre_iff.mpr (List.prefix_refl k)
        have hs : (src.isPrefixOf k) = false := by
          rw [Bool.eq_false_iff]; intro hc; exact hsp (isPre_iff.mp hc)
        have hd : (dst.isPrefixOf k) = false := by
          rw [Bool.eq_false_iff]; intro hc; exact hdp (isPre_iff.mp hc)
        simp [hs, hd]
      · simp [beq_eq_false_iff_ne, hkp]

theorem lastVal_nil (dst p : Path) : lastVal [] dst p = none := rfl

theorem lastVal_cons (e : Path × Node) (tpl : List (Path × Node)) (dst p : Path) :
    lastVal (e :: tpl) dst p =
      (lastVal tpl dst p).or (if dst ++ e.1 = p then some e.2 else none) := by
  unfold lastVal
  rw [List.reverse_cons, List.find?_append]
  by_cases h : dst ++ e.1 = p
  · cases hfind : (tpl.reverse.find? (fun e => dst ++ e.1 == p)) <;>
      simp [List.find?_cons, h, hfind]
  · have hb : (dst ++ e.1 == p) = false := beq_eq_false_iff_ne.mpr h
    cases hfind : (tpl.reverse.find? (fun e => dst ++ e.1 == p)) <;>
      simp [List.find?_cons, hb, h, hfind]

theorem lookup_copyTreeAux (tpl : List (Path × Node)) (dst : Path) (fs : FS) (p : Path) :
    (copyTreeAux tpl dst fs).lookup p = (lastVal tpl dst p).or (fs.lookup p) := by
  induction tpl generalizing fs with
  | nil => simp [copyTreeAux, lastVal_nil]
  | cons e tpl ih =>
    have hstep : copyTreeAux (e :: tpl) dst fs = copyTreeAux tpl dst (fs.set (dst ++ e.1) e.2) := rfl
    rw [hstep, ih, lastVal_cons, lookup_set]
    by_cases h : p = dst ++ e.1
    · subst h
      simp
      cases lastVal tpl dst (dst ++ e.1) <;> simp
    · have h2 : ¬ (dst ++ e.1 = p) := fun hh => h hh.symm
      simp [h, h2]

theorem lookup_copy_tree (tpl : List (Path × Node)) (dst : Path) (fs : FS) (p : Path) :
    (copy_tree tpl dst fs).lookup p =
      (lastVal tpl dst p).or (if p = dst then some Node.dir else fs.lookup p) := by
  unfold copy_tree
  rw [lookup_copyTreeAux, lookup_set]

theorem lastVal_some_mem {tpl : List (Path × Node)} {dst p : Path} {v : Node}
    (h : lastVal tpl dst p = some v) : ∃ r ∈ tpl, dst ++ r.1 = p ∧ r.2 = v := by
  unfold lastVal at h
  cases hfind : tpl.reverse.find? (fun e => dst ++ e.1 == p) with
  | none => rw [hfind] at h; exact absurd h (by simp)
  | some r =>
    rw [hfind] at h
    have hmem : r ∈ tpl.reverse := List.mem_of_find?_eq_some hfind
    have hpred := List.find?_some hfind
    refine ⟨r, List.mem_reverse.mp hmem, by simpa using hpred, by simpa using h⟩

theorem lastVal_nodup {tpl : List (Path × Node)} {dst : Path} {r : Path × Node}
    (hnd : (tpl.map Prod.fst).Nodup) (hr : r ∈ tpl) :
    lastVal tpl dst (dst ++ r.1) = some r.2 := by
  unfold lastVal
  have hnd' : (tpl.reverse.map Prod.fst).Nodup := by
    rw [List.map_reverse, List.nodup_reverse]
    exact hnd
  have hr' : r ∈ tpl.reverse := List.mem_reverse.mpr hr
  clear hnd hr
  generalize tpl.reverse = l at hnd' hr'
  induction l with
  | nil => exact absurd hr' (List.not_mem_nil r)
  | cons a l ih =>
    rcases List.mem_cons.mp hr' with rfl | hmem
    · simp [List.find?_cons]
    · have hane : a.1 ≠ r.1 := by
        intro hcontra
        have : a.1 ∈ l.map Prod.fst := hcontra ▸ List.mem_map_of_mem Prod.fst hmem
        exact (List.nodup_cons.mp hnd').1 this
      have hb : (dst ++ a.1 == dst ++ r.1) = false := by
        rw [beq_eq_false_iff_ne]
        intro hcontra
        exact hane (List.append_cancel_left hcontra)
      rw [List.find?_cons, hb]
      exact ih (List.nodup_cons.mp hnd').2 hmem

/-! ### pathExists lemmas -/

theorem pathExists_iff {fs : FS} {p : Path} :
    fs.pathExists p = true ↔ ∃ e ∈ fs.entries, p <+: e.1 := by
  unfold FS.pathExists
  rw [List.any_eq_true]
  constructor
  · rintro ⟨e, hmem, hpre⟩; exact ⟨e, hmem, isPre_iff.mp hpre⟩
  · rintro ⟨e, hmem, hpre⟩; exact ⟨e, hmem, isPre_iff.mpr hpre⟩

theorem pathExists_of_entry {fs : FS} {p k : Path} {v : Node}
    (hmem : (k, v) ∈ fs.entries) (hpre : p <+: k) : fs.pathExists p = true :=
  pathExists_iff.mpr ⟨(k, v), hmem, hpre⟩

theorem lookup_some_mem {fs : FS} {p : Path} {n : Node}
    (h : fs.lookup p = some n) : (p, n) ∈ fs.entries := by
  unfold FS.lookup at h
  cases hfind : fs.entries.find? (fun e => e.1 == p) with
  | none => rw [hfind] at h; exact absurd h (by simp)
  | some e =>
    rw [hfind] at h
    have hmem : e ∈ fs.entries := List.mem_of_find?_eq_some hfind
    have hpred := List.find?_some hfind
    have h1 : e.1 = p := by simpa using hpred
    have h2 : e.2 = n := by simpa using h
    have : e = (p, n) := Prod.ext h1 h2
    exact this ▸ hmem

/-! ### Membership in the entry lists after each operation -/

theorem mem_entries_set {fs : FS} {q : Path} {n : Node} {e : Path × Node} :
    e ∈ (fs.set q n).entries ↔ e = (q, n) ∨ (e ∈ fs.entries ∧ e.1 ≠ q) := by
  unfold FS.set
  simp [List.mem_filter]

theorem mem_entries_copyTreeAux {tpl : List (Path × Node)} {dst : Path} {fs : FS}
    {e : Path × Node} (h : e ∈ (copyTreeAux tpl dst fs).entries) :
    (∃ r ∈ tpl, e = (dst ++ r.1, r.2)) ∨ e ∈ fs.entries := by
  induction tpl generalizing fs with
  | nil => exact Or.inr h
  | cons a tpl ih =>
    have hstep : copyTreeAux (a :: tpl) dst fs = copyTreeAux tpl dst (fs.set (dst ++ a.1) a.2) := rfl
    rw [hstep] at h
    rcases ih h with ⟨r, hr, hre⟩ | hmem
    · exact Or.inl ⟨r, List.mem_cons_of_mem a hr, hre⟩
    · rcases mem_entries_set.mp hmem with he | ⟨hmem', _⟩
      · exact Or.inl ⟨a, List.mem_cons_self a tpl, he⟩
      · exact Or.inr hmem'

theorem mem_entries_copy_tree {tpl : List (Path × Node)} {dst : Path} {fs : FS}
    {e : Path × Node} (h : e ∈ (copy_tree tpl dst fs).entries) :
    (∃ r ∈ tpl, e = (dst ++ r.1, r.2)) ∨ e = (dst, Node.dir) ∨ e ∈ fs.entries := by
  unfold copy_tree at h
  rcases mem_entries_copyTreeAux h with h1 | h2
  · exact Or.inl h1
  · rcases mem_entries_set.mp h2 with he | ⟨hmem, _⟩
    · exact Or.inr (Or.inl he)
    · exact Or.inr (Or.inr hmem)

theorem mem_entries_move {fs : FS} {src dst : Path} {e : Path × Node}
    (h : e ∈ (fs.move src dst).entries) :
    dst <+: e.1 ∨ (e ∈ fs.entries ∧ ¬ src <+: e.1) := by
  unfold FS.move at h
  rcases List.mem_append.mp h with h1 | h2
  · simp only [List.mem_map, List.mem_filter] at h1
    obtain ⟨a, ⟨_, _⟩, ha⟩ := h1
    left
    have hfst : (dst ++ a.1.drop src.length, a.2).1 = e.1 := congrArg Prod.fst ha
    simp only at hfst
    exact hfst ▸ List.prefix_append dst _
  · right
    rw [List.mem_filter] at h2
    refine ⟨h2.1, ?_⟩
    have := h2.2
    simp only [Bool.and_eq_true, Bool.not_eq_true'] at this
    intro hcontra
    rw [isPre_iff.mpr hcontra] at this
    exact absurd this.1 (by simp)

/-! ### Keys are never deleted by set and copy -/

theorem exists_key_set {fs : FS} {q k : Path} {n : Node}
    (h : ∃ x, (k, x) ∈ fs.entries) : ∃ x, (k, x) ∈ (fs.set q n).entries := by
  obtain ⟨x, hx⟩ := h
  by_cases hk : k = q
  · exact ⟨n, mem_entries_set.mpr (Or.inl (by rw [hk]))⟩
  · exact ⟨x, mem_entries_set.mpr (Or.inr ⟨hx, hk⟩)⟩

theorem exists_key_copyTreeAux {tpl : List (Path × Node)} {dst : Path} {fs : FS} {k : Path}
    (h : ∃ x, (k, x) ∈ fs.entries) : ∃ x, (k, x) ∈ (copyTreeAux tpl dst fs).entries := by
  induction tpl generalizing fs with
  | nil => exact h
  | cons a tpl ih => exact ih (exists_key_set h)

theorem exists_key_copy_tree {tpl : List (Path × Node)} {dst : Path} {fs : FS} {k : Path}
    (h : ∃ x, (k, x) ∈ fs.entries) : ∃ x, (k, x) ∈ (copy_tree tpl dst fs).entries :=
  exists_key_copyTreeAux (exists_key_set h)

/-! ### rootChildren lemmas -/

theorem childName_eq_some {root p : Path} {n : String} :
    childName root p = some n ↔ root ++ [n] <+: p := by
  unfold childName
  by_cases h : root.isPrefixOf p
  · rw [if_pos h]
    obtain ⟨t, rfl⟩ := isPre_iff.mp h
    rw [List.drop_left, pre_append_iff, pre_singleton_head]
  · rw [if_neg h]
    constructor
    · intro hc; exact absurd hc (by simp)
    · intro hc
      exact absurd (isPre_iff.mpr ((List.prefix_append root [n]).trans hc)) (by simp [h])

theorem mem_rootChildren {fs : FS} {root : Path} {n : String} :
    n ∈ fs.rootChildren root ↔
      headIsDot n = false ∧ ∃ e ∈ fs.entries, root ++ [n] <+: e.1 := by
  unfold FS.rootChildren
  rw [List.mem_dedup, List.mem_filter, List.mem_filterMap]
  simp only [childName_eq_some, Bool.not_eq_true']
  exact and_comm

theorem rootChildren_nodup (fs : FS) (root : Path) : (fs.rootChildren root).Nodup :=
  List.nodup_dedup _

/-! ### Path-shape facts used by the move loop -/

theorem mediaMoves_cons (n : String) (ns : List String) (root : Path) (fs : FS) :
    mediaMoves (n :: ns) root fs =
      mediaMoves ns root
        (if mediaName n then fs.move (root ++ [n]) (photosDir root ++ [n]) else fs) := rfl

theorem media_ne_public {a : String} (hm : mediaName a = true) : a ≠ "public" := by
  intro hc
  rw [hc] at hm
  exact absurd hm (by decide)

theorem pre_child_photos {root : Path} {a n : String}
    (h : root ++ [a] <+: photosDir root ++ [n]) : a = "public" := by
  have h' : root ++ [a] <+: root ++ "public" :: ["images", "photos", n] := by
    simpa [photosDir, List.append_assoc] using h
  exact pre_snoc_cons h'

theorem media_not_pre_photos {root : Path} {a n : String} (hm : mediaName a = true) :
    ¬ (root ++ [a] <+: photosDir root ++ [n]) := by
  intro hc
  exact media_ne_public hm (pre_child_photos hc)

theorem media_not_pre_pub {root : Path} {a : String} {rest : List String}
    (hm : mediaName a = true) (h : root ++ [a] <+: root ++ "public" :: rest) : False :=
  media_ne_public hm (pre_snoc_cons h)

theorem photos_child_not_pre {root p : Path} {n : String}
    (hlen : p.length ≤ root.length + 1) : ¬ (photosDir root ++ [n] <+: p) := by
  intro h
  have hle := h.length_le
  simp [photosDir] at hle
  omega

theorem move_disjoint {root : Path} {n : String} (hm : mediaName n = true) :
    ¬ (root ++ [n] <+: photosDir root ++ [n]) ∧ ¬ (photosDir root ++ [n] <+: root ++ [n]) :=
  ⟨media_not_pre_photos hm, photos_child_not_pre (by simp)⟩

/-! ### The move loop -/

theorem lookup_mediaMoves_preserved {ns : List String} {root : Path} {fs : FS} {p : Path}
    (h : ∀ n ∈ ns, mediaName n = true →
      ¬ (root ++ [n] <+: p) ∧ ¬ (photosDir root ++ [n] <+: p)) :
    (mediaMoves ns root fs).lookup p = fs.lookup p := by
  induction ns generalizing fs with
  | nil => rfl
  | cons n ns ih =>
    rw [mediaMoves_cons]
    by_cases hm : mediaName n = true
    · rw [if_pos hm]
      rw [ih (fun m hmem hmedia => h m (List.mem_cons_of_mem n hmem) hmedia)]
      rw [lookup_move _ _ _ _ (move_disjoint hm).1 (move_disjoint hm).2]
      have hn := h n (List.mem_cons_self n ns) hm
      rw [if_neg hn.1, if_neg hn.2]
    · rw [if_neg hm]
      exact ih (fun m hmem hmedia => h m (List.mem_cons_of_mem n hmem) hmedia)

theorem lookup_mediaMoves_moved {ns : List String} {root : Path} {fs : FS} {name : String}
    (hnd : ns.Nodup) (hmem : name ∈ ns) (hmedia : mediaName name = true) :
    (mediaMoves ns root fs).lookup (photosDir root ++ [name]) = fs.lookup (root ++ [name])
    ∧ (mediaMoves ns root fs).lookup (root ++ [name]) = none := by
  induction ns generalizing fs with
  | nil => exact absurd hmem (List.not_mem_nil name)
  | cons m ns ih =>
    rw [mediaMoves_cons]
    by_cases hcase : name = m
    · subst hcase
      rw [if_pos hmedia]
      have hnotmem : name ∉ ns := (List.nodup_cons.mp hnd).1
      constructor
      · rw [lookup_mediaMoves_preserved]
        · rw [lookup_move _ _ _ _ (move_disjoint hmedia).1 (move_disjoint hmedia).2]
          rw [if_neg (media_not_pre_photos hmedia), if_pos (List.prefix_refl _)]
          rw [List.drop_length, List.append_nil]
        · intro n hn hmn
          refine ⟨fun hc => absurd hmn (by rw [pre_child_photos hc]; decide), fun hc => ?_⟩
          have : n = name := by simpa [photosDir, List.append_assoc] using hc
          exact hnotmem (this ▸ hn)
      · rw [lookup_mediaMoves_preserved]
        · rw [lookup_move _ _ _ _ (move_disjoint hmedia).1 (move_disjoint hmedia).2]
          rw [if_pos (List.prefix_refl _)]
        · intro n hn hmn
          refine ⟨fun hc => ?_, photos_child_not_pre (by simp)⟩
          have : n = name := by simpa using hc
          exact hnotmem (this ▸ hn)
    · have hmem' : name ∈ ns := (List.mem_cons.mp hmem).resolve_left hcase
      by_cases hm : mediaName m = true
      · rw [if_pos hm]
        have ihr := @ih (fs.move (root ++ [m]) (photosDir root ++ [m]))
          (List.nodup_cons.mp hnd).2 hmem'
        have hbase : (fs.move (root ++ [m]) (photosDir root ++ [m])).lookup (root ++ [name])
            = fs.lookup (root ++ [name]) := by
          rw [lookup_move _ _ _ _ (move_disjoint hm).1 (move_disjoint hm).2]
          rw [if_neg, if_neg]
          · exact photos_child_not_pre (by simp)
          · intro hc
            have : m = name := by simpa using hc
            exact hcase this.symm
        refine ⟨?_, ihr.2⟩
        rw [ihr.1, hbase]
      · rw [if_neg hm]
        exact ih (List.nodup_cons.mp hnd).2 hmem'

theorem mediaMoves_noop {ns : List String} {root : Path} {fs : FS}
    (h : ∀ n ∈ ns, mediaName n = false) : mediaMoves ns root fs = fs := by
  induction ns with
  | nil => rfl
  | cons n ns ih =>
    rw [mediaMoves_cons]
    have h1 : mediaName n = false := h n (List.mem_cons_self n ns)
    rw [h1]
    simp only [Bool.false_eq_true, if_false]
    exact ih (fun m hmem => h m (List.mem_cons_of_mem n hmem))

theorem mem_entries_mediaMoves {ns : List String} {root : Path} {fs : FS} {e : Path × Node}
    (h : e ∈ (mediaMoves ns root fs).entries) :
    photosDir root <+: e.1
    ∨ (e ∈ fs.entries ∧ ∀ n ∈ ns, mediaName n = true → ¬ (root ++ [n] <+: e.1)) := by
  induction ns generalizing fs with
  | nil => exact Or.inr ⟨h, by simp⟩
  | cons m ns ih =>
    rw [mediaMoves_cons] at h
    by_cases hm : mediaName m = true
    · rw [if_pos hm] at h
      rcases ih h with h1 | ⟨h2, h3⟩
      · exact Or.inl h1
      · rcases mem_entries_move h2 with h4 | ⟨h5, h6⟩
        · exact Or.inl ((List.prefix_append (photosDir root) [m]).trans h4)
        · refine Or.inr ⟨h5, fun n hn hmn => ?_⟩
          rcases List.mem_cons.mp hn with rfl | hn'
          · exact h6
          · exact h3 n hn' hmn
    · rw [if_neg hm] at h
      rcases ih h with h1 | ⟨h2, h3⟩
      · exact Or.inl h1
      · refine Or.inr ⟨h2, fun n hn hmn => ?_⟩
        rcases List.mem_cons.mp hn with rfl | hn'
        · exact absurd hmn hm
        · exact h3 n hn' hmn

/-! ### Small path-shape helpers for the scaffold -/

theorem lastVal_eq_none {tpl : List (Path × Node)} {dst p : Path}
    (h : ∀ r ∈ tpl, dst ++ r.1 ≠ p) : lastVal tpl dst p = none := by
  cases hl : lastVal tpl dst p with
  | none => rfl
  | some v =>
    obtain ⟨r, hr, he, _⟩ := lastVal_some_mem hl
    exact absurd he (h r hr)

theorem append_singleton_inj {root : Path} {a b : String}
    (h : root ++ [a] = root ++ [b]) : a = b := by
  have := List.append_cancel_left h
  simpa using this

theorem pub_entry_eq_child {root r1 : Path} {name : String}
    (h : root ++ ["public"] ++ r1 = root ++ [name]) : "public" = name := by
  rw [List.append_assoc] at h
  have h2 := List.append_cancel_left h
  have h3 : "public" :: r1 = [name] := h2
  injection h3

theorem append_append_cons (root : Path) (a : String) (l : List String) :
    root ++ [a] ++ l = root ++ a :: l := by
  rw [List.append_assoc]
  rfl

theorem append_ne_self {root : Path} {l : List String} (hl : l ≠ []) : root ++ l ≠ root := by
  intro hc
  have hlen := congrArg List.length hc
  rw [List.length_append] at hlen
  have : l.length = 0 := by omega
  exact hl (List.length_eq_zero.mp this)

theorem cgfs_eq (publicTpl htmlTpl : List (Path × Node)) (root : Path) (fs : FS) :
    create_gallery_folder_structure publicTpl htmlTpl root fs =
      copy_tree htmlTpl root
        (mediaMoves ((copy_tree publicTpl (root ++ ["public"]) fs).rootChildren root) root
          (copy_tree publicTpl (root ++ ["public"]) fs)) := rfl

/-- The first copy step does not disturb a media-named immediate child of the
root. -/
theorem copy_pub_preserves_media_child {publicTpl : List (Path × Node)} {root : Path}
    {fs : FS} {name : String} (hne : name ≠ "public") :
    (copy_tree publicTpl (root ++ ["public"]) fs).lookup (root ++ [name])
      = fs.lookup (root ++ [name]) := by
  rw [lookup_copy_tree]
  rw [lastVal_eq_none (fun r hr hc => hne (pub_entry_eq_child hc).symm)]
  rw [if_neg (fun hc : root ++ [name] = root ++ ["public"] =>
    hne (append_singleton_inj hc))]
  rfl

/-- Core transport fact: a media-named, non-hidden immediate child of the root
ends up at `public/images/photos` with its node intact, and disappears from
the root, provided the HTML template writes nothing below `public` and no
media-named top-level entry. -/
theorem media_child_moved (publicTpl htmlTpl : List (Path × Node)) (root : Path) (fs : FS)
    (name : String) (node : Node)
    (h : fs.lookup (root ++ [name]) = some node)
    (hmedia : mediaName name = true) (hdot : headIsDot name = false)
    (H1 : ∀ e ∈ htmlTpl, e.1.head? ≠ some "public")
    (H2 : ∀ e ∈ htmlTpl, ∀ hd, e.1.head? = some hd → mediaName hd = false) :
    (create_gallery_folder_structure publicTpl htmlTpl root fs).lookup
        (photosDir root ++ [name]) = some node
    ∧ (create_gallery_folder_structure publicTpl htmlTpl root fs).lookup
        (root ++ [name]) = none := by
  rw [cgfs_eq]
  have hne : name ≠ "public" := media_ne_public hmedia
  have hfs1 : (copy_tree publicTpl (root ++ ["public"]) fs).lookup (root ++ [name])
      = some node := by rw [copy_pub_preserves_media_child hne]; exact h
  have hmem_ns : name ∈ (copy_tree publicTpl (root ++ ["public"]) fs).rootChildren root :=
    mem_rootChildren.mpr ⟨hdot, (root ++ [name], node), lookup_some_mem hfs1,
      List.prefix_refl _⟩
  have hmoved := @lookup_mediaMoves_moved
    ((copy_tree publicTpl (root ++ ["public"]) fs).rootChildren root) root
    (copy_tree publicTpl (root ++ ["public"]) fs) name
    (rootChildren_nodup (copy_tree publicTpl (root ++ ["public"]) fs) root) hmem_ns hmedia
  constructor
  · rw [lookup_copy_tree]
    rw [lastVal_eq_none]
    · rw [if_neg]
      · rw [hmoved.1, hfs1]
        rfl
      · intro hc
        have : (photosDir root ++ [name]).length = root.length := congrArg List.length hc
        simp [photosDir] at this
    · intro r hr hc
      have hpre0 : root ++ ["public"] <+: photosDir root ++ [name] :=
        ⟨["images", "photos", name], by simp [photosDir]⟩
      have hpre : root ++ ["public"] <+: root ++ r.1 := by rw [hc]; exact hpre0
      have hhd : r.1.head? = some "public" := by
        obtain ⟨t, ht⟩ := pre_append_iff.mp hpre
        rw [← ht]
        rfl
      exact H1 r hr hhd
  · rw [lookup_copy_tree]
    rw [lastVal_eq_none]
    · rw [if_neg (append_ne_self (by simp))]
      exact hmoved.2
    · intro r hr hc
      have h2 := List.append_cancel_left hc
      have hhd : r.1.head? = some name := by rw [h2]; rfl
      have := H2 r hr name hhd
      rw [hmedia] at this
      exact absurd this (by simp)

/-- A non-media-named immediate child of the root is untouched by the whole
scaffold, provided the HTML template has no top-level entry of that name. -/
theorem nonmedia_child_untouched (publicTpl htmlTpl : List (Path × Node)) (root : Path)
    (fs : FS) (name : String)
    (hm : mediaName name = false) (hpub : name ≠ "public")
    (Hh : ∀ e ∈ htmlTpl, e.1 ≠ [name]) :
    (create_gallery_folder_structure publicTpl htmlTpl root fs).lookup (root ++ [name])
      = fs.lookup (root ++ [name]) := by
  rw [cgfs_eq]
  rw [lookup_copy_tree]
  rw [lastVal_eq_none (fun r hr hc => Hh r hr (List.append_cancel_left hc))]
  rw [if_neg (append_ne_self (by simp))]
  rw [lookup_mediaMoves_preserved]
  · exact copy_pub_preserves_media_child hpub
  · intro n hn hmn
    constructor
    · intro hc
      have : n = name := by simpa using hc
      rw [this, hm] at hmn
      exact absurd hmn (by simp)
    · exact photos_child_not_pre (by simp)

/-! ### The marker check -/

theorem gallery_exists_iff {fs : FS} {root : Path} :
    check_if_gallery_already_exists fs root = true ↔
      (fs.pathExists (root ++ ["gallery.json"]) = true
       ∨ fs.pathExists (root ++ ["images_data.json"]) = true
       ∨ fs.pathExists (root ++ ["index_template.html"]) = true
       ∨ fs.pathExists (root ++ ["public"]) = true) := by
  unfold check_if_gallery_already_exists
  simp [List.any_cons, List.any_nil, Bool.or_eq_true]

/-! ### The thumbnail prompt loop -/

theorem thumbnailLoop_cons (i : String) (rest : List String) :
    thumbnailLoop (i :: rest) =
      if acceptThumb i = true then some (thumbVal i) else thumbnailLoop rest := by
  simp only [thumbnailLoop, acceptThumb, thumbVal]
  by_cases h1 : strIsDigit (if i = "" then DEFAULT_THUMBNAIL_HEIGHT else i) = true
  · by_cases h2 : 32 ≤ digitsToNat (if i = "" then DEFAULT_THUMBNAIL_HEIGHT else i)
    · by_cases h3 : digitsToNat (if i = "" then DEFAULT_THUMBNAIL_HEIGHT else i) ≤ 1024
      · simp [h1, h2, h3]
      · simp [h1, h2, h3]
    · simp [h1, h2]
  · simp [h1]

theorem thumbnailLoop_range {l : List String} {h : Nat} (hl : thumbnailLoop l = some h) :
    32 ≤ h ∧ h ≤ 1024 := by
  induction l with
  | nil => exact absurd hl (by simp [thumbnailLoop])
  | cons i rest ih =>
    rw [thumbnailLoop_cons] at hl
    by_cases ha : acceptThumb i = true
    · rw [if_pos ha] at hl
      have heq : thumbVal i = h := by simpa using hl
      subst heq
      unfold acceptThumb at ha
      unfold thumbVal
      simp only [Bool.and_eq_true, decide_eq_true_eq] at ha
      exact ⟨ha.2.1, ha.2.2⟩
    · rw [if_neg ha] at hl
      exact ih hl

theorem thumbnailLoop_first_accept {pre post : List String} {i : String}
    (hpre : ∀ j ∈ pre, acceptThumb j = false) (hi : acceptThumb i = true) :
    thumbnailLoop (pre ++ i :: post) = some (thumbVal i) := by
  induction pre with
  | nil => simp [thumbnailLoop_cons, hi]
  | cons j rest ih =>
    rw [List.cons_append, thumbnailLoop_cons]
    rw [if_neg (by simp [hpre j (List.mem_cons_self j rest)])]
    exact ih (fun k hk => hpre k (List.mem_cons_of_mem j hk))

/-! ### Claim theorems -/

/-- C1: `check_if_gallery_already_exists root` returns true exactly when at
least one of the four marker paths (`gallery.json`, `images_data.json`,
`index_template.html`, the `public` subdirectory) exists under the root.  The
check is a pure read of the file system: it is a `Bool`-valued function of the
state and returns no modified state, so it has no side effects by
construction. -/
theorem c1_gallery_exists_iff_marker (fs : FS) (gallery_root : Path) :
    check_if_gallery_already_exists fs gallery_root = true ↔
      (fs.pathExists (gallery_root ++ ["gallery.json"]) = true
       ∨ fs.pathExists (gallery_root ++ ["images_data.json"]) = true
       ∨ fs.pathExists (gallery_root ++ ["index_template.html"]) = true
       ∨ fs.pathExists (gallery_root ++ ["public"]) = true) :=
  gallery_exists_iff

/-- C3: the thumbnail-height prompt loop silently rejects every answer that is
neither empty nor an in-range integer string, and accepts the first answer
that is empty (yielding the default 320) or an integer string in `[32, 1024]`
(yielding that integer); the resulting height always lies in `[32, 1024]`. -/
theorem c3_thumbnail_loop_spec (pre post : List String) (i : String)
    (hpre : ∀ j ∈ pre, acceptThumb j = false) (hi : acceptThumb i = true) :
    thumbnailLoop (pre ++ i :: post) = some (thumbVal i)
    ∧ (i = "" → thumbVal i = 320)
    ∧ (i ≠ "" → thumbVal i = digitsToNat i)
    ∧ 32 ≤ thumbVal i ∧ thumbVal i ≤ 1024 := by
  have h1 := @thumbnailLoop_first_accept pre post i hpre hi
  have h2 := thumbnailLoop_range h1
  refine ⟨h1, ?_, ?_, h2.1, h2.2⟩
  · intro he
    subst he
    decide
  · intro hne
    unfold thumbVal
    rw [if_neg hne]

/-- Witness for C3, the validation sequence of the specification: `"31"`,
`"abc"` and `"1025"` are rejected and `"1024"` is accepted with value 1024. -/
theorem c3_witness :
    thumbnailLoop (["31", "abc", "1025"] ++ "1024" :: []) = some (thumbVal "1024")
    ∧ ("1024" = "" → thumbVal "1024" = 320)
    ∧ ("1024" ≠ "" → thumbVal "1024" = digitsToNat "1024")
    ∧ 32 ≤ thumbVal "1024" ∧ thumbVal "1024" ≤ 1024 :=
  c3_thumbnail_loop_spec ["31", "abc", "1025"] [] "1024" (by decide) (by decide)

/-- C4: when the gallery root does not exist,
`check_if_gallery_creation_possible` returns false and the program exits with
status 1, leaving the file system exactly as it was. -/
theorem c4_missing_root_aborts (publicTpl htmlTpl : List (Path × Node))
    (gallery_root : Path) (force : Bool) (inp : UserInputs) (fs : FS)
    (h : fs.pathExists gallery_root = false) :
    check_if_gallery_creation_possible fs gallery_root = false
    ∧ main publicTpl htmlTpl ⟨gallery_root, force⟩ inp fs = some (1, fs) := by
  refine ⟨h, ?_⟩
  unfold main
  simp [check_if_gallery_creation_possible, h]

/-- Witness for C4 on an empty file system. -/
theorem c4_witness :
    (FS.mk []).pathExists ["r"] = false
    ∧ (check_if_gallery_creation_possible (FS.mk []) ["r"] = false
       ∧ main [] [] ⟨["r"], false⟩ ⟨"", "", []⟩ (FS.mk []) = some (1, FS.mk [])) :=
  ⟨by decide, c4_missing_root_aborts [] [] ["r"] false ⟨"", "", []⟩ (FS.mk []) (by decide)⟩

/-- C5: when the root exists and contains at least one marker path, a run
without `--force` reports the gallery as existing, writes nothing (the final
file system is the input one), and exits with status 0. -/
theorem c5_existing_gallery_noop (publicTpl htmlTpl : List (Path × Node))
    (gallery_root : Path) (inp : UserInputs) (fs : FS)
    (hroot : fs.pathExists gallery_root = true)
    (hmarker : fs.pathExists (gallery_root ++ ["gallery.json"]) = true
       ∨ fs.pathExists (gallery_root ++ ["images_data.json"]) = true
       ∨ fs.pathExists (gallery_root ++ ["index_template.html"]) = true
       ∨ fs.pathExists (gallery_root ++ ["public"]) = true) :
    check_if_gallery_already_exists fs gallery_root = true
    ∧ main publicTpl htmlTpl ⟨gallery_root, false⟩ inp fs = some (0, fs) := by
  have hex : check_if_gallery_already_exists fs gallery_root = true :=
    gallery_exists_iff.mpr hmarker
  refine ⟨hex, ?_⟩
  unfold main
  simp [check_if_gallery_creation_possible, hroot, hex]

/-- Witness for C5 on a root that contains a `gallery.json` marker. -/
theorem c5_witness :
    ((FS.mk [(["r"], Node.dir), (["r", "gallery.json"], Node.file "x")]).pathExists ["r"] = true
     ∧ (FS.mk [(["r"], Node.dir), (["r", "gallery.json"], Node.file "x")]).pathExists
         (["r"] ++ ["gallery.json"]) = true)
    ∧ (check_if_gallery_already_exists
        (FS.mk [(["r"], Node.dir), (["r", "gallery.json"], Node.file "x")]) ["r"] = true
       ∧ main [] [] ⟨["r"], false⟩ ⟨"", "", []⟩
          (FS.mk [(["r"], Node.dir), (["r", "gallery.json"], Node.file "x")])
         = some (0, FS.mk [(["r"], Node.dir), (["r", "gallery.json"], Node.file "x")])) :=
  ⟨⟨by decide, by decide⟩,
   c5_existing_gallery_noop [] [] ["r"] ⟨"", "", []⟩
     (FS.mk [(["r"], Node.dir), (["r", "gallery.json"], Node.file "x")])
     (by decide) (Or.inl (by decide))⟩

/-- C2: the scaffold (i) relocates every media-named, non-hidden immediate
child of the root into `public/images/photos` with its name and node intact,
removing it from the root, (ii) leaves non-media children such as a `.txt`
file untouched at the root, (iii) merge-copies the public-assets template
below `root/public`, (iv) merge-copies the HTML template into `root` itself
(it is copied last, so its entries always win), and (v) preserves unrelated
pre-existing destination content below `root/public`.  The hypotheses say
that the bundled HTML template has no entry below `public` and no media-named
top-level entry, which holds of the shipped templates. -/
theorem c2_create_structure_spec (publicTpl htmlTpl : List (Path × Node))
    (gallery_root : Path) (fs : FS)
    (H1 : ∀ e ∈ htmlTpl, e.1.head? ≠ some "public")
    (H2 : ∀ e ∈ htmlTpl, ∀ hd, e.1.head? = some hd → mediaName hd = false) :
    (∀ name node, fs.lookup (gallery_root ++ [name]) = some node →
      mediaName name = true → headIsDot name = false →
      (create_gallery_folder_structure publicTpl htmlTpl gallery_root fs).lookup
          (photosDir gallery_root ++ [name]) = some node
      ∧ (create_gallery_folder_structure publicTpl htmlTpl gallery_root fs).lookup
          (gallery_root ++ [name]) = none)
    ∧ (∀ name, mediaName name = false → name ≠ "public" →
        (∀ e ∈ htmlTpl, e.1 ≠ [name]) →
        (create_gallery_folder_structure publicTpl htmlTpl gallery_root fs).lookup
            (gallery_root ++ [name]) = fs.lookup (gallery_root ++ [name]))
    ∧ ((publicTpl.map Prod.fst).Nodup →
        ∀ r ∈ publicTpl, ¬ (["images", "photos"] <+: r.1) →
        (create_gallery_folder_structure publicTpl htmlTpl gallery_root fs).lookup
            (gallery_root ++ ["public"] ++ r.1) = some r.2)
    ∧ ((htmlTpl.map Prod.fst).Nodup →
        ∀ r ∈ htmlTpl,
        (create_gallery_folder_structure publicTpl htmlTpl gallery_root fs).lookup
            (gallery_root ++ r.1) = some r.2)
    ∧ (∀ p, gallery_root ++ ["public"] <+: p → p ≠ gallery_root ++ ["public"] →
        ¬ (photosDir gallery_root <+: p) →
        (∀ r ∈ publicTpl, gallery_root ++ ["public"] ++ r.1 ≠ p) →
        (create_gallery_folder_structure publicTpl htmlTpl gallery_root fs).lookup p
          = fs.lookup p) := by
  refine ⟨fun name node h hm hd => media_child_moved publicTpl htmlTpl gallery_root fs
      name node h hm hd H1 H2,
    fun name hm hp hh => nonmedia_child_untouched publicTpl htmlTpl gallery_root fs
      name hm hp hh, ?_, ?_, ?_⟩
  · intro hnd r hr hip
    rw [cgfs_eq, lookup_copy_tree]
    rw [lastVal_eq_none]
    · rw [if_neg]
      · rw [lookup_mediaMoves_preserved]
        · rw [lookup_copy_tree, lastVal_nodup hnd hr]
          rfl
        · intro n hn hmn
          constructor
          · intro hc
            have hc' : gallery_root ++ [n] <+: gallery_root ++ "public" :: r.1 := by
              rw [append_append_cons] at hc
              exact hc
            exact media_not_pre_pub hmn hc'
          · intro hc
            have hphoto_eq : photosDir gallery_root ++ [n]
                = gallery_root ++ ["public"] ++ ["images", "photos", n] := by
              simp [photosDir]
            rw [hphoto_eq] at hc
            have hc' : ["images", "photos", n] <+: r.1 := pre_append_iff.mp hc
            exact hip ((List.prefix_append ["images", "photos"] [n]).trans hc')
      · intro hc
        have hc' : gallery_root ++ "public" :: r.1 = gallery_root := by
          rw [append_append_cons] at hc
          exact hc
        exact append_ne_self (by simp) hc'
    · intro e he hc
      have h2 : e.1 = "public" :: r.1 := by
        have hc' : gallery_root ++ e.1 = gallery_root ++ "public" :: r.1 := by
          rw [append_append_cons] at hc
          exact hc
        exact List.append_cancel_left hc'
      exact H1 e he (by rw [h2]; rfl)
  · intro hnd r hr
    rw [cgfs_eq, lookup_copy_tree, lastVal_nodup hnd hr]
    rfl
  · intro p hpre hne hphotos hpub
    obtain ⟨t, ht⟩ := hpre
    rw [cgfs_eq, lookup_copy_tree]
    rw [lastVal_eq_none]
    · rw [if_neg]
      · rw [lookup_mediaMoves_preserved]
        · rw [lookup_copy_tree]
          rw [lastVal_eq_none hpub, if_neg (fun hc => hne hc)]
          rfl
        · intro n hn hmn
          constructor
          · intro hc
            have hc' : gallery_root ++ [n] <+: gallery_root ++ "public" :: t := by
              rw [← ht, append_append_cons] at hc
              exact hc
            exact media_not_pre_pub hmn hc'
          · intro hc
            exact hphotos ((List.prefix_append (photosDir gallery_root) [n]).trans hc)
      · intro hc
        rw [hc] at ht
        have hlen := congrArg List.length ht
        simp [List.length_append] at hlen
    · intro e he hc
      have h2 : e.1 = "public" :: t := by
        have hc' : gallery_root ++ e.1 = gallery_root ++ "public" :: t := by
          rw [hc, ← ht, append_append_cons]
        exact List.append_cancel_left hc'
      exact H1 e he (by rw [h2]; rfl)

/-- Witness for C2 on the sample file system and templates: media files
`a.JPG` and `b.mp4` are relocated with case preserved, `c.txt` stays, the
templates land in place and unrelated public content is preserved. -/
theorem c2_witness :
    (∀ name node, sampleFS.lookup (["r"] ++ [name]) = some node →
      mediaName name = true → headIsDot name = false →
      (create_gallery_folder_structure samplePublicTpl sampleHtmlTpl ["r"] sampleFS).lookup
          (photosDir ["r"] ++ [name]) = some node
      ∧ (create_gallery_folder_structure samplePublicTpl sampleHtmlTpl ["r"] sampleFS).lookup
          (["r"] ++ [name]) = none)
    ∧ (∀ name, mediaName name = false → name ≠ "public" →
        (∀ e ∈ sampleHtmlTpl, e.1 ≠ [name]) →
        (create_gallery_folder_structure samplePublicTpl sampleHtmlTpl ["r"] sampleFS).lookup
            (["r"] ++ [name]) = sampleFS.lookup (["r"] ++ [name]))
    ∧ ((samplePublicTpl.map Prod.fst).Nodup →
        ∀ r ∈ samplePublicTpl, ¬ (["images", "photos"] <+: r.1) →
        (create_gallery_folder_structure samplePublicTpl sampleHtmlTpl ["r"] sampleFS).lookup
            (["r"] ++ ["public"] ++ r.1) = some r.2)
    ∧ ((sampleHtmlTpl.map Prod.fst).Nodup →
        ∀ r ∈ sampleHtmlTpl,
        (create_gallery_folder_structure samplePublicTpl sampleHtmlTpl ["r"] sampleFS).lookup
            (["r"] ++ r.1) = some r.2)
    ∧ (∀ p, ["r"] ++ ["public"] <+: p → p ≠ ["r"] ++ ["public"] →
        ¬ (photosDir ["r"] <+: p) →
        (∀ r ∈ samplePublicTpl, ["r"] ++ ["public"] ++ r.1 ≠ p) →
        (create_gallery_folder_structure samplePublicTpl sampleHtmlTpl ["r"] sampleFS).lookup p
          = sampleFS.lookup p) :=
  c2_create_structure_spec samplePublicTpl sampleHtmlTpl ["r"] sampleFS
    (by decide) (by decide)

/-- C10: the relocation filter tests only the lowercased name suffix and never
checks that the entry is a regular file, so an immediate child directory whose
name ends in a media extension is moved into `public/images/photos` as well. -/
theorem c10_media_named_directory_moved (publicTpl htmlTpl : List (Path × Node))
    (gallery_root : Path) (fs : FS) (name : String)
    (h : fs.lookup (gallery_root ++ [name]) = some Node.dir)
    (hmedia : mediaName name = true) (hdot : headIsDot name = false)
    (H1 : ∀ e ∈ htmlTpl, e.1.head? ≠ some "public")
    (H2 : ∀ e ∈ htmlTpl, ∀ hd, e.1.head? = some hd → mediaName hd = false) :
    (create_gallery_folder_structure publicTpl htmlTpl gallery_root fs).lookup
        (photosDir gallery_root ++ [name]) = some Node.dir
    ∧ (create_gallery_folder_structure publicTpl htmlTpl gallery_root fs).lookup
        (gallery_root ++ [name]) = none :=
  media_child_moved publicTpl htmlTpl gallery_root fs name Node.dir h hmedia hdot H1 H2

/-- Witness for C10: the directory `d.jpg` of the sample file system is moved
into the photos folder. -/
theorem c10_witness :
    (create_gallery_folder_structure samplePublicTpl sampleHtmlTpl ["r"] sampleFS).lookup
        (photosDir ["r"] ++ ["d.jpg"]) = some Node.dir
    ∧ (create_gallery_folder_structure samplePublicTpl sampleHtmlTpl ["r"] sampleFS).lookup
        (["r"] ++ ["d.jpg"]) = none :=
  c10_media_named_directory_moved samplePublicTpl sampleHtmlTpl ["r"] sampleFS "d.jpg"
    (by decide) (by decide) (by decide) (by decide) (by decide)

/-- C9: `glob` with the pattern `*` skips names that begin with a dot, so a
hidden media-named child is never relocated: the photos folder does not gain
it and the root keeps it. -/
theorem c9_hidden_media_not_moved (publicTpl htmlTpl : List (Path × Node))
    (gallery_root : Path) (fs : FS) (name : String)
    (hdot : headIsDot name = true)
    (Hp : ∀ r ∈ publicTpl, r.1 ≠ ["images", "photos", name])
    (H1 : ∀ e ∈ htmlTpl, e.1.head? ≠ some "public")
    (Hh : ∀ e ∈ htmlTpl, e.1 ≠ [name]) :
    (create_gallery_folder_structure publicTpl htmlTpl gallery_root fs).lookup
        (photosDir gallery_root ++ [name])
      = fs.lookup (photosDir gallery_root ++ [name])
    ∧ (create_gallery_folder_structure publicTpl htmlTpl gallery_root fs).lookup
        (gallery_root ++ [name])
      = fs.lookup (gallery_root ++ [name]) := by
  rw [cgfs_eq]
  constructor
  · rw [lookup_copy_tree]
    rw [lastVal_eq_none]
    · rw [if_neg]
      · rw [lookup_mediaMoves_preserved]
        · rw [lookup_copy_tree]
          rw [lastVal_eq_none]
          · rw [if_neg]
            · rfl
            · intro hc
              have hlen := congrArg List.length hc
              simp [photosDir, List.length_append] at hlen
          · intro r hr hc
            have heq : photosDir gallery_root ++ [name]
                = gallery_root ++ ["public"] ++ ["images", "photos", name] := by
              simp [photosDir]
            rw [heq] at hc
            exact Hp r hr (List.append_cancel_left hc)
        · intro n hn hmn
          have hdn : headIsDot n = false := (mem_rootChildren.mp hn).1
          refine ⟨media_not_pre_photos hmn, fun hc => ?_⟩
          have hne : n = name := by simpa [photosDir, List.append_assoc] using hc
          rw [hne] at hdn
          rw [hdn] at hdot
          exact absurd hdot (by simp)
      · intro hc
        have hlen := congrArg List.length hc
        simp [photosDir, List.length_append] at hlen
    · intro e he hc
      have heq : photosDir gallery_root ++ [name]
          = gallery_root ++ "public" :: ["images", "photos", name] := by
        simp [photosDir]
      rw [heq] at hc
      have h2 := List.append_cancel_left hc
      exact H1 e he (by rw [h2]; rfl)
  · rw [lookup_copy_tree]
    rw [lastVal_eq_none (fun e he hc => Hh e he (List.append_cancel_left hc))]
    rw [if_neg (append_ne_self (by simp))]
    rw [lookup_mediaMoves_preserved]
    · rw [lookup_copy_tree]
      rw [lastVal_eq_none]
      · rw [if_neg]
        · rfl
        · intro hc
          have hne : name = "public" := append_singleton_inj hc
          rw [hne] at hdot
          exact absurd hdot (by decide)
      · intro r hr hc
        have h2 := pub_entry_eq_child hc
        rw [← h2] at hdot
        exact absurd hdot (by decide)
    · intro n hn hmn
      have hdn : headIsDot n = false := (mem_rootChildren.mp hn).1
      refine ⟨fun hc => ?_, photos_child_not_pre (by simp)⟩
      have hne : n = name := by simpa using hc
      rw [hne] at hdn
      rw [hdn] at hdot
      exact absurd hdot (by simp)

/-- Witness for C9: the hidden file `.hidden.jpg` of the sample file system is
left in place even though its name ends in `.jpg`. -/
theorem c9_witness :
    (create_gallery_folder_structure samplePublicTpl sampleHtmlTpl ["r"] sampleFS).lookup
        (photosDir ["r"] ++ [".hidden.jpg"])
      = sampleFS.lookup (photosDir ["r"] ++ [".hidden.jpg"])
    ∧ (create_gallery_folder_structure samplePublicTpl sampleHtmlTpl ["r"] sampleFS).lookup
        (["r"] ++ [".hidden.jpg"])
      = sampleFS.lookup (["r"] ++ [".hidden.jpg"]) :=
  c9_hidden_media_not_moved samplePublicTpl sampleHtmlTpl ["r"] sampleFS ".hidden.jpg"
    (by decide) (by decide) (by decide) (by decide)

/-- C6: the configuration record serialized to `gallery.json` carries exactly
the four derived paths (`root/images_data.json`, `root/public`,
`root/public/images/photos`, `root/public/images/thumbnails`) and a thumbnail
height in `[32, 1024]`.  The serialized JSON object is the key/value list
`galleryJsonItems c`; parsing the document back yields that object, so the
round trip is stated as lookups in it. -/
theorem c6_config_round_trip (gallery_root : Path) (inp : UserInputs) (c : GalleryConfig)
    (h : buildGalleryConfig gallery_root inp = some c) :
    List.lookup "images_data_file" (galleryJsonItems c)
        = some (JVal.str (renderPath (gallery_root ++ ["images_data.json"])))
    ∧ List.lookup "public_path" (galleryJsonItems c)
        = some (JVal.str (renderPath (gallery_root ++ ["public"])))
    ∧ List.lookup "images_path" (galleryJsonItems c)
        = some (JVal.str (renderPath (gallery_root ++ ["public", "images", "photos"])))
    ∧ List.lookup "thumbnails_path" (galleryJsonItems c)
        = some (JVal.str (renderPath (gallery_root ++ ["public", "images", "thumbnails"])))
    ∧ ∃ hgt, List.lookup "thumbnail_height" (galleryJsonItems c) = some (JVal.num hgt)
        ∧ 32 ≤ hgt ∧ hgt ≤ 1024 := by
  unfold buildGalleryConfig at h
  cases hloop : thumbnailLoop inp.thumbnailInputs with
  | none =>
    rw [hloop] at h
    exact absurd h (by simp)
  | some hgt =>
    rw [hloop] at h
    have hc : c = { images_data_file := gallery_root ++ ["images_data.json"]
                    public_path := gallery_root ++ ["public"]
                    images_path := gallery_root ++ ["public", "images", "photos"]
                    thumbnails_path := gallery_root ++ ["public", "images", "thumbnails"]
                    title := if inp.titleInput = "" then DEFAULT_TITLE else inp.titleInput
                    description := if inp.descriptionInput = "" then DEFAULT_DESCRIPTION
                      else inp.descriptionInput
                    thumbnail_height := hgt } := by
      have h2 := h
      simp only [Option.map_some'] at h2
      exact (Option.some.inj h2).symm
    subst hc
    have hr := thumbnailLoop_range hloop
    exact ⟨rfl, rfl, rfl, rfl, hgt, rfl, hr.1, hr.2⟩

/-- Witness for C6 at a concrete root and prompt transcript. -/
theorem c6_witness :
    buildGalleryConfig ["r"] ⟨"T", "D", ["100"]⟩ = some
        { images_data_file := ["r", "images_data.json"]
          public_path := ["r", "public"]
          images_path := ["r", "public", "images", "photos"]
          thumbnails_path := ["r", "public", "images", "thumbnails"]
          title := "T"
          description := "D"
          thumbnail_height := 100 }
    ∧ (List.lookup "images_data_file" (galleryJsonItems
          { images_data_file := ["r", "images_data.json"]
            public_path := ["r", "public"]
            images_path := ["r", "public", "images", "photos"]
            thumbnails_path := ["r", "public", "images", "thumbnails"]
            title := "T"
            description := "D"
            thumbnail_height := 100 })
          = some (JVal.str (renderPath (["r"] ++ ["images_data.json"])))
       ∧ List.lookup "public_path" (galleryJsonItems
          { images_data_file := ["r", "images_data.json"]
            public_path := ["r", "public"]
            images_path := ["r", "public", "images", "photos"]
            thumbnails_path := ["r", "public", "images", "thumbnails"]
            title := "T"
            description := "D"
            thumbnail_height := 100 })
          = some (JVal.str (renderPath (["r"] ++ ["public"])))
       ∧ List.lookup "images_path" (galleryJsonItems
          { images_data_file := ["r", "images_data.json"]
            public_path := ["r", "public"]
            images_path := ["r", "public", "images", "photos"]
            thumbnails_path := ["r", "public", "images", "thumbnails"]
            title := "T"
            description := "D"
            thumbnail_height := 100 })
          = some (JVal.str (renderPath (["r"] ++ ["public", "images", "photos"])))
       ∧ List.lookup "thumbnails_path" (galleryJsonItems
          { images_data_file := ["r", "images_data.json"]
            public_path := ["r", "public"]
            images_path := ["r", "public", "images", "photos"]
            thumbnails_path := ["r", "public", "images", "thumbnails"]
            title := "T"
            description := "D"
            thumbnail_height := 100 })
          = some (JVal.str (renderPath (["r"] ++ ["public", "images", "thumbnails"])))
       ∧ ∃ hgt, List.lookup "thumbnail_height" (galleryJsonItems
          { images_data_file := ["r", "images_data.json"]
            public_path := ["r", "public"]
            images_path := ["r", "public", "images", "photos"]
            thumbnails_path := ["r", "public", "images", "thumbnails"]
            title := "T"
            description := "D"
            thumbnail_height := 100 })
          = some (JVal.num hgt) ∧ 32 ≤ hgt ∧ hgt ≤ 1024) :=
  ⟨by decide,
   c6_config_round_trip ["r"] ⟨"T", "D", ["100"]⟩
     { images_data_file := ["r", "images_data.json"]
       public_path := ["r", "public"]
       images_path := ["r", "public", "images", "photos"]
       thumbnails_path := ["r", "public", "images", "thumbnails"]
       title := "T"
       description := "D"
       thumbnail_height := 100 } (by decide)⟩

/-- C8, counterexample: the claim states that the serialization uses the item
separator `", "`; the source passes `separators=(",", ": ")` to `json.dump`,
so at a concrete configuration the written text differs from what the claimed
separators would produce (with an `indent`, CPython emits the item separator
verbatim before each newline, so `", "` would leave a trailing space on every
line). -/
theorem c8_counterexample :
    serializeGalleryConfig
        { images_data_file := ["r", "images_data.json"]
          public_path := ["r", "public"]
          images_path := ["r", "public", "images", "photos"]
          thumbnails_path := ["r", "public", "images", "thumbnails"]
          title := "My Gallery"
          description := "Default description of my gallery"
          thumbnail_height := 320 }
      ≠ jsonDumpFlat (galleryJsonItems
        { images_data_file := ["r", "images_data.json"]
          public_path := ["r", "public"]
          images_path := ["r", "public", "images", "photos"]
          thumbnails_path := ["r", "public", "images", "thumbnails"]
          title := "My Gallery"
          description := "Default description of my gallery"
          thumbnail_height := 320 }) ", " ": " := by decide

/-- C8, amended: the persisted `gallery.json` text is a JSON object with the
seven keys in insertion order, string values quoted and the thumbnail height a
bare integer, serialized with 4-space indentation, the item separator `","`
(followed, because of the indent, by the newline and indentation) and the key
separator `": "`. -/
theorem c8_serialization_format (c : GalleryConfig) :
    serializeGalleryConfig c =
      "\x7b\n    "
      ++ ("\"" ++ "images_data_file" ++ "\"") ++ ": "
        ++ ("\"" ++ renderPath c.images_data_file ++ "\"")
      ++ ("," ++ "\n    ")
      ++ ("\"" ++ "public_path" ++ "\"") ++ ": "
        ++ ("\"" ++ renderPath c.public_path ++ "\"")
      ++ ("," ++ "\n    ")
      ++ ("\"" ++ "images_path" ++ "\"") ++ ": "
        ++ ("\"" ++ renderPath c.images_path ++ "\"")
      ++ ("," ++ "\n    ")
      ++ ("\"" ++ "thumbnails_path" ++ "\"") ++ ": "
        ++ ("\"" ++ renderPath c.thumbnails_path ++ "\"")
      ++ ("," ++ "\n    ")
      ++ ("\"" ++ "title" ++ "\"") ++ ": " ++ ("\"" ++ c.title ++ "\"")
      ++ ("," ++ "\n    ")
      ++ ("\"" ++ "description" ++ "\"") ++ ": " ++ ("\"" ++ c.description ++ "\"")
      ++ ("," ++ "\n    ")
      ++ ("\"" ++ "thumbnail_height" ++ "\"") ++ ": " ++ toString c.thumbnail_height
      ++ "\n\x7d" := by
  simp only [serializeGalleryConfig, jsonDumpFlat, galleryJsonItems, List.map, joinSep,
    renderJVal, quoteJson, String.append_assoc]

/-! ### Support lemmas for idempotence under force -/

theorem main_force_run (publicTpl htmlTpl : List (Path × Node)) (gallery_root : Path)
    (inp : UserInputs) (fs : FS) (c : GalleryConfig)
    (hroot : fs.pathExists gallery_root = true)
    (hc : buildGalleryConfig gallery_root inp = some c) :
    main publicTpl htmlTpl ⟨gallery_root, true⟩ inp fs = some (0,
      (create_gallery_folder_structure publicTpl htmlTpl gallery_root fs).set
        (gallery_root ++ ["gallery.json"]) (Node.file (serializeGalleryConfig c))) := by
  unfold main
  simp only [check_if_gallery_creation_possible, hroot, Bool.not_true,
    Bool.false_eq_true, if_false, Bool.and_false, create_gallery_json, hc,
    Option.map_some']

theorem pub_pre_ne_gjson {root p : Path} (hp : root ++ ["public"] <+: p) :
    p ≠ root ++ ["gallery.json"] := by
  obtain ⟨t, ht⟩ := hp
  intro hc
  rw [← ht, append_append_cons] at hc
  have h2 : "public" :: t = ["gallery.json"] := List.append_cancel_left hc
  have h3 : "public" = "gallery.json" := by injection h2
  exact absurd h3 (by decide)

theorem lookup_copy_html_pub {htmlTpl : List (Path × Node)} {root : Path} {fs : FS} {p : Path}
    (H1 : ∀ e ∈ htmlTpl, e.1.head? ≠ some "public")
    (hp : root ++ ["public"] <+: p) :
    (copy_tree htmlTpl root fs).lookup p = fs.lookup p := by
  obtain ⟨t, ht⟩ := hp
  rw [lookup_copy_tree]
  rw [lastVal_eq_none]
  · rw [if_neg]
    · rfl
    · intro hc
      rw [hc] at ht
      have hlen := congrArg List.length ht
      simp [List.length_append] at hlen
  · intro e he hc
    rw [← ht, append_append_cons] at hc
    have h2 : e.1 = "public" :: t := List.append_cancel_left hc
    exact H1 e he (by rw [h2]; rfl)

theorem moves_preserve_pub_writes {ns : List String} {publicTpl : List (Path × Node)}
    {root : Path} {X : FS} {p : Path}
    (H3 : ∀ r ∈ publicTpl, ["images", "photos"] <+: r.1 → r.1 = ["images", "photos"])
    (hform : p = root ++ ["public"] ∨ ∃ r ∈ publicTpl, root ++ ["public"] ++ r.1 = p) :
    (mediaMoves ns root X).lookup p = X.lookup p := by
  apply lookup_mediaMoves_preserved
  intro n hn hmn
  rcases hform with rfl | ⟨r, hr, rfl⟩
  · exact ⟨fun hc => media_not_pre_pub hmn hc, photos_child_not_pre (by simp)⟩
  · constructor
    · intro hc
      rw [append_append_cons] at hc
      exact media_not_pre_pub hmn hc
    · intro hc
      have heq : photosDir root ++ [n] = root ++ ["public"] ++ ["images", "photos", n] := by
        simp [photosDir]
      rw [heq] at hc
      have h2 := pre_append_iff.mp hc
      have h4 := H3 r hr ((List.prefix_append ["images", "photos"] [n]).trans h2)
      rw [h4] at h2
      have hlen := h2.length_le
      simp at hlen

/-- After a forced run, the root of the gallery holds no media-named,
non-hidden child any more: the second run's scan finds nothing to move. -/
theorem ns2_no_media (publicTpl htmlTpl : List (Path × Node)) (gallery_root : Path)
    (fs0 : FS) (c1 : GalleryConfig)
    (H2 : ∀ e ∈ htmlTpl, ∀ hd, e.1.head? = some hd → mediaName hd = false) :
    ∀ n ∈ ((copy_tree publicTpl (gallery_root ++ ["public"])
        ((create_gallery_folder_structure publicTpl htmlTpl gallery_root fs0).set
          (gallery_root ++ ["gallery.json"])
          (Node.file (serializeGalleryConfig c1)))).rootChildren gallery_root),
      mediaName n = false := by
  intro n hn
  by_contra hmn0
  rw [Bool.not_eq_false] at hmn0
  obtain ⟨hdot, e, he, hpre⟩ := mem_rootChildren.mp hn
  rcases mem_entries_copy_tree he with ⟨r, hr, rfl⟩ | heq | hA
  · have hpre' : gallery_root ++ [n] <+: gallery_root ++ ["public"] ++ r.1 := hpre
    rw [append_append_cons] at hpre'
    exact media_not_pre_pub hmn0 hpre'
  · subst heq
    have hpre' : gallery_root ++ [n] <+: gallery_root ++ "public" :: [] := hpre
    exact media_not_pre_pub hmn0 hpre'
  · rcases mem_entries_set.mp hA with heq | ⟨hg1, _⟩
    · subst heq
      have hpre' : gallery_root ++ [n] <+: gallery_root ++ "gallery.json" :: [] := hpre
      have hng : n = "gallery.json" := pre_snoc_cons hpre'
      rw [hng] at hmn0
      exact absurd hmn0 (by decide)
    · rw [cgfs_eq] at hg1
      rcases mem_entries_copy_tree hg1 with ⟨r, hr, rfl⟩ | heq2 | hM1
      · have hpre' : gallery_root ++ [n] <+: gallery_root ++ r.1 := hpre
        have hh : r.1.head? = some n := pre_singleton_head.mp (pre_append_iff.mp hpre')
        have hfalse := H2 r hr n hh
        rw [hmn0] at hfalse
        exact absurd hfalse (by simp)
      · subst heq2
        have hpre' : gallery_root ++ [n] <+: gallery_root := hpre
        have hlen := hpre'.length_le
        simp [List.length_append] at hlen
      · rcases mem_entries_mediaMoves hM1 with hph | ⟨hX1, hall⟩
        · rcases pre_total hpre hph with hcase | hcase
          · have hcase' : gallery_root ++ [n] <+:
                gallery_root ++ "public" :: ["images", "photos"] := by
              simpa [photosDir] using hcase
            exact media_not_pre_pub hmn0 hcase'
          · have hlen := hcase.length_le
            simp [photosDir, List.length_append] at hlen
        · rcases mem_entries_copy_tree hX1 with ⟨r, hr, rfl⟩ | heq3 | hf0
          · have hpre' : gallery_root ++ [n] <+: gallery_root ++ ["public"] ++ r.1 := hpre
            rw [append_append_cons] at hpre'
            exact media_not_pre_pub hmn0 hpre'
          · subst heq3
            have hpre' : gallery_root ++ [n] <+: gallery_root ++ "public" :: [] := hpre
            exact media_not_pre_pub hmn0 hpre'
          · have hkey : ∃ x, (e.1, x) ∈
                (copy_tree publicTpl (gallery_root ++ ["public"]) fs0).entries :=
              exists_key_copy_tree ⟨e.2, by simpa using hf0⟩
            obtain ⟨x, hx⟩ := hkey
            have hn1 : n ∈ (copy_tree publicTpl
                (gallery_root ++ ["public"]) fs0).rootChildren gallery_root :=
              mem_rootChildren.mpr ⟨hdot, (e.1, x), hx, hpre⟩
            exact hall n hn1 hmn0 hpre

/-- C7: idempotence under force.  Running the full flow twice with `--force`
succeeds both times; the final `gallery.json` holds exactly the configuration
built from the second run's prompt answers, and every path below
`root/public` holds the same node after the second run as after the first
(merge-overwrite, no accumulation).  The hypotheses constrain only the opaque
bundled templates: the HTML template writes nothing below `public` and no
media-named top-level entry, and the only entry of the public template at or
below `images/photos` is that directory itself (so no template file can
collide with a relocated photo); the prompt transcripts must each contain an
acceptable
thumbnail answer, otherwise the corresponding run blocks forever. -/
theorem c7_force_idempotent (publicTpl htmlTpl : List (Path × Node)) (gallery_root : Path)
    (fs0 : FS) (inp1 inp2 : UserInputs) (c1 c2 : GalleryConfig)
    (hroot : fs0.pathExists gallery_root = true)
    (hc1 : buildGalleryConfig gallery_root inp1 = some c1)
    (hc2 : buildGalleryConfig gallery_root inp2 = some c2)
    (H1 : ∀ e ∈ htmlTpl, e.1.head? ≠ some "public")
    (H2 : ∀ e ∈ htmlTpl, ∀ hd, e.1.head? = some hd → mediaName hd = false)
    (H3 : ∀ r ∈ publicTpl, ["images", "photos"] <+: r.1 → r.1 = ["images", "photos"]) :
    ∃ fsA fsB,
      main publicTpl htmlTpl ⟨gallery_root, true⟩ inp1 fs0 = some (0, fsA)
      ∧ main publicTpl htmlTpl ⟨gallery_root, true⟩ inp2 fsA = some (0, fsB)
      ∧ fsB.lookup (gallery_root ++ ["gallery.json"])
          = some (Node.file (serializeGalleryConfig c2))
      ∧ (∀ p, gallery_root ++ ["public"] <+: p → fsB.lookup p = fsA.lookup p) := by
  refine ⟨(create_gallery_folder_structure publicTpl htmlTpl gallery_root fs0).set
      (gallery_root ++ ["gallery.json"]) (Node.file (serializeGalleryConfig c1)),
    (create_gallery_folder_structure publicTpl htmlTpl gallery_root
        ((create_gallery_folder_structure publicTpl htmlTpl gallery_root fs0).set
          (gallery_root ++ ["gallery.json"]) (Node.file (serializeGalleryConfig c1)))).set
      (gallery_root ++ ["gallery.json"]) (Node.file (serializeGalleryConfig c2)),
    main_force_run publicTpl htmlTpl gallery_root inp1 fs0 c1 hroot hc1, ?_, ?_, ?_⟩
  · refine main_force_run publicTpl htmlTpl gallery_root inp2 _ c2 ?_ hc2
    exact pathExists_of_entry (mem_entries_set.mpr (Or.inl rfl))
      ⟨["gallery.json"], rfl⟩
  · rw [lookup_set, if_pos rfl]
  · intro p hp
    have hnegj := pub_pre_ne_gjson hp
    rw [lookup_set, if_neg hnegj, lookup_set, if_neg hnegj]
    conv_lhs => rw [cgfs_eq]
    rw [lookup_copy_html_pub H1 hp]
    rw [mediaMoves_noop (ns2_no_media publicTpl htmlTpl gallery_root fs0 c1 H2)]
    conv_rhs => rw [cgfs_eq]
    rw [lookup_copy_html_pub H1 hp]
    have hfsA_eq : ((create_gallery_folder_structure publicTpl htmlTpl gallery_root fs0).set
          (gallery_root ++ ["gallery.json"])
          (Node.file (serializeGalleryConfig c1))).lookup p
        = (mediaMoves ((copy_tree publicTpl (gallery_root ++ ["public"])
              fs0).rootChildren gallery_root) gallery_root
            (copy_tree publicTpl (gallery_root ++ ["public"]) fs0)).lookup p := by
      rw [lookup_set, if_neg hnegj, cgfs_eq, lookup_copy_html_pub H1 hp]
    rw [lookup_copy_tree]
    cases hlv : lastVal publicTpl (gallery_root ++ ["public"]) p with
    | some v =>
      obtain ⟨r, hr, hrp, hrv⟩ := lastVal_some_mem hlv
      rw [moves_preserve_pub_writes H3 (Or.inr ⟨r, hr, hrp⟩)]
      rw [lookup_copy_tree, hlv]
      rfl
    | none =>
      by_cases hpub : p = gallery_root ++ ["public"]
      · subst hpub
        rw [moves_preserve_pub_writes H3 (Or.inl rfl)]
        rw [lookup_copy_tree, hlv]
        simp
      · rw [if_neg hpub]
        exact hfsA_eq

/-- Witness for C7: two forced runs on the sample file system, with different
prompt answers; the final `gallery.json` reflects only the second transcript
and the public tree is unchanged between the runs. -/
theorem c7_witness :
    ∃ fsA fsB,
      main samplePublicTpl sampleHtmlTpl ⟨["r"], true⟩ ⟨"T1", "D1", ["64"]⟩ sampleFS
          = some (0, fsA)
      ∧ main samplePublicTpl sampleHtmlTpl ⟨["r"], true⟩ ⟨"T2", "D2", ["128"]⟩ fsA
          = some (0, fsB)
      ∧ fsB.lookup (["r"] ++ ["gallery.json"])
          = some (Node.file (serializeGalleryConfig
              { images_data_file := ["r", "images_data.json"]
                public_path := ["r", "public"]
                images_path := ["r", "public", "images", "photos"]
                thumbnails_path := ["r", "public", "images", "thumbnails"]
                title := "T2"
                description := "D2"
                thumbnail_height := 128 }))
      ∧ (∀ p, ["r"] ++ ["public"] <+: p → fsB.lookup p = fsA.lookup p) :=
  c7_force_idempotent samplePublicTpl sampleHtmlTpl ["r"] sampleFS
    ⟨"T1", "D1", ["64"]⟩ ⟨"T2", "D2", ["128"]⟩
    { images_data_file := ["r", "images_data.json"]
      public_path := ["r", "public"]
      images_path := ["r", "public", "images", "photos"]
      thumbnails_path := ["r", "public", "images", "thumbnails"]
      title := "T1"
      description := "D1"
      thumbnail_height := 64 }
    { images_data_file := ["r", "images_data.json"]
      public_path := ["r", "public"]
      images_path := ["r", "public", "images", "photos"]
      thumbnails_path := ["r", "public", "images", "thumbnails"]
      title := "T2"
      description := "D2"
      thumbnail_height := 128 }
    (by decide) (by decide) (by decide) (by decide) (by decide) (by decide)

end SPG
